import Mathlib

/-!
Verification of the youtube-playlist-editor pipeline against its source.

The development shallowly embeds the three pipeline components:

* `extract_video_id` (src/youtube_playlist_editor/utils.py) — the URL-to-id
  extractor.  The Python function tries six regular expressions in order and
  returns the first capture.  Each pattern is `(?:https?://)?(?:www\.)?` then a
  literal core ("youtube.com/watch?v=", "youtu.be/", …) then a capture of
  exactly 11 characters from `[a-zA-Z0-9_-]`.  Because the optional prefixes
  contain no `y` while every core starts with `y` and contains `y` only at
  index 0, `re.search`'s leftmost match for such a pattern is exactly the
  leftmost occurrence of the core that is followed by at least 11 identifier
  characters, and the capture is those 11 characters.  The embedding
  (`searchCore`) implements that characterisation directly on `List Char`.

* `get_existing_playlist_video_ids` (api.py) — the paginated fetch with its
  retry loop.  The remote client is modelled as a script of page outcomes
  consumed one per `execute()` call; the embedding returns the resulting id
  set together with the number of calls, the sleeps performed and the page
  token passed to each call.

* `add_video_to_playlist` (api.py) and the `add` command loop (cli.py) —
  insert outcomes are modelled as a value per call; the batch runner is a
  fold over the input lines carrying the four counters.
-/

namespace YtPl

/-- Character class `[a-zA-Z0-9_-]` of the Python patterns. -/
def idAlphabet (c : Char) : Bool :=
  c.isAlpha || c.isDigit || c == '-' || c == '_'

/-- One attempt of the pattern at the start of `s`: the literal `core` must be
a prefix and must be followed by (at least) 11 identifier characters; the
capture is those 11 characters (`{11}` consumes exactly 11, with no anchor
after, so longer runs are truncated). -/
def matchAt (core s : List Char) : Option (List Char) :=
  if core.isPrefixOf s then
    let idc := (s.drop core.length).take 11
    if idc.length = 11 && idc.all idAlphabet then some idc else none
  else none

/-- `re.search` for one pattern: scan positions left to right, return the
first successful `matchAt`. -/
def searchCore (core : List Char) : List Char → Option (List Char)
  | [] => matchAt core []
  | c :: rest =>
    match matchAt core (c :: rest) with
    | some v => some v
    | none => searchCore core rest

/-- The six pattern cores, in the priority order of `utils.py`. -/
def cores : List (List Char) :=
  ["youtube.com/watch?v=".toList, "youtu.be/".toList,
   "youtube.com/embed/".toList, "youtube.com/v/".toList,
   "youtube.com/shorts/".toList, "youtube.com/live/".toList]

/-- Try the patterns in order; first hit wins (the `for pattern in patterns`
loop of `extract_video_id`). -/
def tryPatterns : List (List Char) → List Char → Option (List Char)
  | [], _ => none
  | p :: ps, url =>
    match searchCore p url with
    | some v => some v
    | none => tryPatterns ps url

/-- `extract_video_id` from utils.py, on `List Char`. -/
def extract_video_id (url : List Char) : Option (List Char) :=
  tryPatterns cores url

example : extract_video_id "https://www.youtube.com/watch?v=dQw4w9WgXcQ".toList
    = some "dQw4w9WgXcQ".toList := by decide
example : extract_video_id "https://youtu.be/dQw4w9WgXcQ?t=15".toList
    = some "dQw4w9WgXcQ".toList := by decide
example : extract_video_id "".toList = none := by decide
example : extract_video_id "youtu.be/".toList = none := by decide

/-! ## The paginated fetch with retry (`get_existing_playlist_video_ids`) -/

def MAX_RETRIES : Nat := 3

def INITIAL_BACKOFF : Nat := 1

/-- Outcome of one `request.execute()` call inside the pagination loop:
a page (each item's optional `videoId`, plus the optional `nextPageToken`),
an `HttpError` with a status, or a non-HTTP exception. -/
inductive PageResult where
  | ok (items : List (Option String)) (nextTok : Option String)
  | httpErr (status : Nat)
  | exn
deriving DecidableEq

/-- Observable trace of one run of `get_existing_playlist_video_ids`: the
returned id set (in insertion order), the number of `execute()` calls made,
the sleep durations performed, and the page token passed to each call. -/
structure FetchResult where
  ids : List String
  calls : Nat
  sleeps : List Nat
  reqToks : List (Option String)
deriving DecidableEq, Repr

/-- Python `set.add`, on an insertion-ordered duplicate-free list. -/
def insertId (s : List String) (v : String) : List String :=
  if v ∈ s then s else s ++ [v]

/-- The `for item in response.get("items", [])` loop body: a missing or falsy
(empty) `videoId` is skipped, any other id is added to the set. -/
def addPageItems (s : List String) : List (Option String) → List String
  | [] => s
  | none :: rest => addPageItems s rest
  | some v :: rest =>
    if v = "" then addPageItems s rest else addPageItems (insertId s v) rest

/-- Python `if not next_page_token: break` — a missing and an empty (falsy)
continuation token both end the pagination. -/
def tokEnds : Option String → Bool
  | none => true
  | some t => t == ""

/-- The combined pagination-plus-retry loop of
`get_existing_playlist_video_ids`, consuming one script entry per
`execute()` call.  State threaded exactly as in the Python function:
`ids` (= `existing_ids`), `tok` (= `next_page_token`) and `attempt` are
initialised once, *outside* the retry loop, and are not reset by the
exception handlers.  The outer `while attempt < MAX_RETRIES` guard is true
on entry (`attempt = 0`) and on every re-entry (each retrying handler
recurses only when `attempt' < MAX_RETRIES`), so the loop's fall-through
exit is unreachable and the guard is not re-modelled here.  Returns `none`
only when the script is too short to answer a call. -/
def fetchGo : List PageResult → List String → Option String → Nat → Nat →
    List Nat → List (Option String) → Option FetchResult
  | [], _, _, _, _, _, _ => none
  | r :: rest, ids, tok, attempt, calls, sleeps, toks =>
    let calls' := calls + 1
    let toks' := toks ++ [tok]
    match r with
    | .ok items next =>
      let ids' := addPageItems ids items
      if tokEnds next then some ⟨ids', calls', sleeps, toks'⟩
      else fetchGo rest ids' next attempt calls' sleeps toks'
    | .httpErr status =>
      let wait := INITIAL_BACKOFF * 2 ^ attempt
      if status = 404 then some ⟨[], calls', sleeps, toks'⟩
      else if status = 500 ∨ status = 502 ∨ status = 503 ∨ status = 504 then
        if MAX_RETRIES ≤ attempt + 1 then some ⟨[], calls', sleeps, toks'⟩
        else fetchGo rest ids tok (attempt + 1) calls' (sleeps ++ [wait]) toks'
      else some ⟨[], calls', sleeps, toks'⟩
    | .exn =>
      let wait := INITIAL_BACKOFF * 2 ^ attempt
      if MAX_RETRIES ≤ attempt + 1 then some ⟨[], calls', sleeps, toks'⟩
      else fetchGo rest ids tok (attempt + 1) calls' (sleeps ++ [wait]) toks'

/-- `get_existing_playlist_video_ids` from api.py, as a function of the
scripted remote responses.  (In the handlers, Python computes
`wait = INITIAL_BACKOFF * 2 ** (attempt - 1)` after `attempt += 1`; with the
pre-increment counter `a` used here that is `INITIAL_BACKOFF * 2 ^ a`.) -/
def get_existing_playlist_video_ids (script : List PageResult) :
    Option FetchResult :=
  fetchGo script [] none 0 0 [] []

example :
    get_existing_playlist_video_ids
      [.ok [some "vid1"] (some "page2"), .ok [some "vid2"] none]
    = some ⟨["vid1", "vid2"], 2, [], [none, some "page2"]⟩ := by decide

/-! ## The single insert (`add_video_to_playlist`) -/

/-- Outcome of the one `insert(...).execute()` call. -/
inductive InsertOutcome where
  | ok
  | httpErr (status : Nat) (content : List Char)
  | exn
deriving DecidableEq

/-- Which diagnostic branch of `add_video_to_playlist` runs (log/echo stream
only; it never affects the returned boolean). -/
inductive InsertDiag where
  | success
  | playlistMissing404
  | videoMissing404
  | other404
  | forbidden
  | conflict
  | transient (status : Nat)
  | otherHttp (status : Nat)
  | unexpected
deriving DecidableEq

/-- Python `pat in s` substring test. -/
def hasInfix (pat : List Char) : List Char → Bool
  | [] => pat.isPrefixOf []
  | c :: rest => pat.isPrefixOf (c :: rest) || hasInfix pat rest

/-- `add_video_to_playlist` from api.py: the returned boolean together with
the diagnostic classification of the failure (the if/elif ladder over the
status and the `str(e.content)` substring checks). -/
def add_video_to_playlist : InsertOutcome → Bool × InsertDiag
  | .ok => (true, .success)
  | .httpErr status content =>
    (false,
      if status = 404 then
        if hasInfix "playlistNotFound".toList content then .playlistMissing404
        else if hasInfix "videoNotFound".toList content then .videoMissing404
        else .other404
      else if status = 403 then .forbidden
      else if status = 409 then .conflict
      else if status = 500 ∨ status = 502 ∨ status = 503 ∨ status = 504 then
        .transient status
      else .otherHttp status)
  | .exn => (false, .unexpected)

/-! ## The batch runner (`add` command loop in cli.py) -/

/-- Python `str.strip` whitespace (the ASCII set, which is what text-file
line iteration can produce). -/
def pySpace (c : Char) : Bool :=
  c == ' ' || c == '\t' || c == '\n' || c == '\r' || c == '\x0b' || c == '\x0c'

/-- `line.strip()`. -/
def pyStrip (l : List Char) : List Char :=
  ((l.dropWhile pySpace).reverse.dropWhile pySpace).reverse

/-- `url.startswith("#")`. -/
def startsHash : List Char → Bool
  | '#' :: _ => true
  | _ => false

/-- A line the loop skips silently: stripped to blank, or a comment. -/
def skipLine (l : List Char) : Bool :=
  (pyStrip l).isEmpty || startsHash (pyStrip l)

/-- The four summary counters of the `add` command. -/
structure RunCounters where
  added : Nat
  skipped : Nat
  duplicates : Nat
  errors : Nat
deriving DecidableEq, Repr

/-- The per-line loop of the `add` command.  `insertScript n` is the remote
outcome of the `n`-th `add_video_to_playlist` call (0-based);
`insertCalls` counts those calls.  The loop sees only the boolean returned
by `add_video_to_playlist`. -/
def addGo (insertScript : Nat → InsertOutcome) :
    List (List Char) → List (List Char) → Nat → RunCounters →
    RunCounters × Nat
  | [], _, insertCalls, cs => (cs, insertCalls)
  | line :: rest, existing, insertCalls, cs =>
    let url := pyStrip line
    if url.isEmpty || startsHash url then
      addGo insertScript rest existing insertCalls cs
    else
      match extract_video_id url with
      | some vid =>
        if vid ∈ existing then
          addGo insertScript rest existing insertCalls
            { cs with duplicates := cs.duplicates + 1 }
        else
          if (add_video_to_playlist (insertScript insertCalls)).1 then
            addGo insertScript rest (existing ++ [vid]) (insertCalls + 1)
              { cs with added := cs.added + 1 }
          else
            addGo insertScript rest existing (insertCalls + 1)
              { cs with errors := cs.errors + 1 }
      | none =>
        addGo insertScript rest existing insertCalls
          { cs with skipped := cs.skipped + 1 }

/-- The `add` command's file loop (after authentication, playlist
verification and the initial fetch), as a function of the input lines, the
initial existing-id set, and the scripted insert outcomes. -/
def run_add (lines : List (List Char)) (existing : List (List Char))
    (insertScript : Nat → InsertOutcome) : RunCounters × Nat :=
  addGo insertScript lines existing 0 ⟨0, 0, 0, 0⟩

/-! ## Theorems about the fetch loop -/

/-- C7: when the first page request fails with a 404, the fetch is terminal
immediately: exactly one remote call, zero sleeps, an empty result set, and
no further attempt regardless of what the remote side would have answered
next (the rest of the script is never consulted). -/
theorem c7_fetch_404_terminal (rest : List PageResult) :
    get_existing_playlist_video_ids (.httpErr 404 :: rest)
      = some ⟨[], 1, [], [none]⟩ := by
  simp [get_existing_playlist_video_ids, fetchGo]

/-- C6: transient-failure retry with exponential backoff.  (a) A 503 on
attempt 1 followed by success on attempt 2 yields the attempt-2 result after
exactly one sleep of `INITIAL_BACKOFF = 1` time unit, in two calls.  (b) Any
three transient failures (statuses drawn from {500, 502, 503, 504}) exhaust the
3-attempt budget: three calls, sleeps of 1 and 2 time units
(= 1·2⁰, 1·2¹ for attempts 1 and 2), and an empty set is returned.
(c) In general, the sleep inserted after failed attempt `a + 1` (pre-increment
counter `a`) is `INITIAL_BACKOFF * 2 ^ a`, and the loop retries keeping the
remaining script. -/
theorem c6_fetch_transient_backoff :
    (get_existing_playlist_video_ids [.httpErr 503, .ok [some "x"] none]
        = some ⟨["x"], 2, [1], [none, none]⟩) ∧
    (∀ s₁ s₂ s₃ : Nat,
      (s₁ = 500 ∨ s₁ = 502 ∨ s₁ = 503 ∨ s₁ = 504) →
      (s₂ = 500 ∨ s₂ = 502 ∨ s₂ = 503 ∨ s₂ = 504) →
      (s₃ = 500 ∨ s₃ = 502 ∨ s₃ = 503 ∨ s₃ = 504) →
      get_existing_playlist_video_ids [.httpErr s₁, .httpErr s₂, .httpErr s₃]
        = some ⟨[], 3, [1, 2], [none, none, none]⟩) ∧
    (∀ (s : Nat) rest ids tok attempt calls sleeps toks,
      (s = 500 ∨ s = 502 ∨ s = 503 ∨ s = 504) →
      attempt + 1 < MAX_RETRIES →
      fetchGo (.httpErr s :: rest) ids tok attempt calls sleeps toks
        = fetchGo rest ids tok (attempt + 1) (calls + 1)
            (sleeps ++ [INITIAL_BACKOFF * 2 ^ attempt]) (toks ++ [tok])) := by
  refine ⟨by decide, ?_, ?_⟩
  · intro s₁ s₂ s₃ h₁ h₂ h₃
    rcases h₁ with rfl | rfl | rfl | rfl <;>
      rcases h₂ with rfl | rfl | rfl | rfl <;>
        rcases h₃ with rfl | rfl | rfl | rfl <;> decide
  · intro s rest ids tok attempt calls sleeps toks hs hlt
    have h404 : ¬ s = 404 := by rcases hs with rfl | rfl | rfl | rfl <;> simp
    have hmax : ¬ MAX_RETRIES ≤ attempt + 1 := by omega
    simp only [fetchGo, if_neg h404, if_pos hs, if_neg hmax]

/-- Closed instantiation of the hypotheses of `c6_fetch_transient_backoff`. -/
theorem c6_fetch_transient_backoff_witness :
    get_existing_playlist_video_ids [.httpErr 500, .httpErr 502, .httpErr 504]
      = some ⟨[], 3, [1, 2], [none, none, none]⟩ :=
  c6_fetch_transient_backoff.2.1 500 502 504
    (Or.inl rfl) (Or.inr (Or.inl rfl)) (Or.inr (Or.inr (Or.inr rfl)))

/-- C2 counterexample: the retried pagination does NOT restart from the first
page.  Script: page one succeeds with one item `"a"` and continuation token
`"t2"`; the page-two request fails with a 503; the retried request succeeds.
The run makes 3 calls with page tokens `[none, some "t2", some "t2"]` — the
call after the retry re-uses the pending continuation token `"t2"` instead of
`none` (the first page), and the result set still contains `"a"` from the
partial pass.  So partial results and the continuation cursor ARE carried
into the retry, and no already-seen page is re-fetched. -/
theorem c2_counterexample_retry_resumes :
    get_existing_playlist_video_ids
        [.ok [some "a"] (some "t2"), .httpErr 503, .ok [some "b"] none]
      = some ⟨["a", "b"], 3, [1], [none, some "t2", some "t2"]⟩ ∧
    ([none, some "t2", some "t2"] : List (Option String))[2]? ≠ some none := by
  decide

/-- C2 amended: whenever a page request fails with a transient status and a
retry begins, the retry resumes from the pending continuation cursor with the
partial id set intact — `ids` and `tok` are passed unchanged into the next
attempt — so already-seen pages are not re-requested (no restart from page
one).  The concrete three-call trace of the counterexample illustrates the
resulting behaviour. -/
theorem c2_amended_retry_keeps_cursor :
    (∀ (s : Nat) rest ids tok attempt calls sleeps toks,
      (s = 500 ∨ s = 502 ∨ s = 503 ∨ s = 504) →
      attempt + 1 < MAX_RETRIES →
      fetchGo (.httpErr s :: rest) ids tok attempt calls sleeps toks
        = fetchGo rest ids tok (attempt + 1) (calls + 1)
            (sleeps ++ [INITIAL_BACKOFF * 2 ^ attempt]) (toks ++ [tok])) ∧
    get_existing_playlist_video_ids
        [.ok [some "a"] (some "t2"), .httpErr 503, .ok [some "b"] none]
      = some ⟨["a", "b"], 3, [1], [none, some "t2", some "t2"]⟩ := by
  constructor
  · intro s rest ids tok attempt calls sleeps toks hs hlt
    have h404 : ¬ s = 404 := by rcases hs with rfl | rfl | rfl | rfl <;> simp
    have hmax : ¬ MAX_RETRIES ≤ attempt + 1 := by omega
    simp only [fetchGo, if_neg h404, if_pos hs, if_neg hmax]
  · decide

/-- Closed instantiation of the hypotheses of `c2_amended_retry_keeps_cursor`. -/
theorem c2_amended_retry_keeps_cursor_witness :
    fetchGo [.httpErr 503, .ok [some "b"] none] ["a"] (some "t2") 0 1 [] [none]
      = fetchGo [.ok [some "b"] none] ["a"] (some "t2") 1 2 [1] [none, some "t2"] :=
  c2_amended_retry_keeps_cursor.1 503 [.ok [some "b"] none] ["a"] (some "t2")
    0 1 [] [none] (Or.inr (Or.inr (Or.inl rfl))) (by decide)

/-- C3 counterexample: a non-HTTP exception is NOT terminal immediately.
Script: the first call raises a non-HTTP exception, the second call succeeds.
The run makes 2 remote calls and sleeps once (for 1 time unit) — contradicting
"performing no further remote calls, no sleep, and consuming no remaining
retry budget" for an error of unrecognized shape. -/
theorem c3_counterexample_exn_retried :
    get_existing_playlist_video_ids [.exn, .ok [] none]
      = some ⟨[], 2, [1], [none, none]⟩ ∧
    ([1] : List Nat) ≠ [] := by
  decide

/-- C3 amended: a failure other than 404 and the transient statuses is
terminal after the current attempt only when it is an HTTP failure: for any
status `s ∉ {404, 500, 502, 503, 504}` the fetch returns an empty set
immediately — one more call, no sleep, the rest of script never consulted,
regardless of remaining retry budget.  A non-HTTP exception, by contrast,
consumes retry budget like a transient failure: it sleeps
`INITIAL_BACKOFF * 2 ^ attempt` and retries while budget remains, and returns
an empty set once the 3-attempt budget is exhausted. -/
theorem c3_amended_nontransient_http_terminal :
    (∀ (s : Nat) rest ids tok attempt calls sleeps toks,
      s ≠ 404 → ¬ (s = 500 ∨ s = 502 ∨ s = 503 ∨ s = 504) →
      fetchGo (.httpErr s :: rest) ids tok attempt calls sleeps toks
        = some ⟨[], calls + 1, sleeps, toks ++ [tok]⟩) ∧
    (∀ rest ids tok attempt calls sleeps toks,
      attempt + 1 < MAX_RETRIES →
      fetchGo (.exn :: rest) ids tok attempt calls sleeps toks
        = fetchGo rest ids tok (attempt + 1) (calls + 1)
            (sleeps ++ [INITIAL_BACKOFF * 2 ^ attempt]) (toks ++ [tok])) ∧
    (∀ rest ids tok attempt calls sleeps toks,
      MAX_RETRIES ≤ attempt + 1 →
      fetchGo (.exn :: rest) ids tok attempt calls sleeps toks
        = some ⟨[], calls + 1, sleeps, toks ++ [tok]⟩) := by
  refine ⟨?_, ?_, ?_⟩
  · intro s rest ids tok attempt calls sleeps toks h404 htrans
    simp only [fetchGo, if_neg h404, if_neg htrans]
  · intro rest ids tok attempt calls sleeps toks hlt
    have hmax : ¬ MAX_RETRIES ≤ attempt + 1 := by omega
    simp only [fetchGo, if_neg hmax]
  · intro rest ids tok attempt calls sleeps toks hge
    simp only [fetchGo, if_pos hge]

/-- Closed instantiation of the hypotheses of
`c3_amended_nontransient_http_terminal`. -/
theorem c3_amended_nontransient_http_terminal_witness :
    fetchGo [.httpErr 403, .ok [] none] [] none 0 0 [] []
      = some ⟨[], 1, [], [none]⟩ :=
  c3_amended_nontransient_http_terminal.1 403 [.ok [] none] [] none 0 0 [] []
    (by decide) (by decide)

/-! ## Theorems about the batch runner -/

/-- The sum of the four run-summary counters. -/
def counterSum (cs : RunCounters) : Nat :=
  cs.added + cs.skipped + cs.duplicates + cs.errors

lemma addGo_counterSum (o : Nat → InsertOutcome) (lines : List (List Char)) :
    ∀ existing insertCalls cs,
      counterSum (addGo o lines existing insertCalls cs).1
        = counterSum cs + (lines.filter (fun l => !skipLine l)).length := by
  induction lines with
  | nil => intro existing insertCalls cs; simp [addGo]
  | cons line rest ih =>
    intro existing insertCalls cs
    simp only [addGo]
    by_cases hskip : ((pyStrip line).isEmpty || startsHash (pyStrip line)) = true
    · rw [if_pos hskip, ih]
      have hs : skipLine line = true := hskip
      simp [List.filter_cons, hs]
    · rw [if_neg hskip]
      have hs : skipLine line = false := by
        simpa [skipLine] using hskip
      cases hev : extract_video_id (pyStrip line) with
      | none =>
        simp only [hev]
        rw [ih]
        simp [counterSum, List.filter_cons, hs]
        omega
      | some vid =>
        simp only [hev]
        by_cases hmem : vid ∈ existing
        · rw [if_pos hmem, ih]
          simp [counterSum, List.filter_cons, hs]
          omega
        · rw [if_neg hmem]
          by_cases hb : (add_video_to_playlist (o insertCalls)).1 = true
          · rw [if_pos hb, ih]
            simp [counterSum, List.filter_cons, hs]
            omega
          · rw [if_neg hb, ih]
            simp [counterSum, List.filter_cons, hs]
            omega

/-- C1: after the `add` loop completes, the four summary counters sum to the
number of non-blank, non-comment input lines — every such line increments
exactly one counter, and blank/comment lines increment none — for every
input file, every initial existing-set, and every sequence of insert
outcomes. -/
theorem c1_counter_sum_invariant (lines : List (List Char))
    (existing : List (List Char)) (o : Nat → InsertOutcome) :
    counterSum (run_add lines existing o).1
      = (lines.filter (fun l => !skipLine l)).length := by
  have h := addGo_counterSum o lines existing 0 ⟨0, 0, 0, 0⟩
  simpa [run_add, counterSum] using h

/-- C9: with 4 non-comment lines where line 2's id is already in the initial
existing-set and line 3 repeats line 1's id, and insert always succeeding:
added = 2, skipped-unparseable = 0, skipped-duplicate = 2, errored = 0, and
insert is called exactly twice — the successfully inserted id from line 1 is
added to the in-memory set, so line 3 is skipped as a duplicate. -/
theorem c9_within_file_dedup :
    run_add
      ["https://youtu.be/AAAAAAAAAAA".toList,
       "https://youtu.be/BBBBBBBBBBB".toList,
       "https://youtu.be/AAAAAAAAAAA".toList,
       "https://youtu.be/CCCCCCCCCCC".toList]
      ["BBBBBBBBBBB".toList] (fun _ => .ok)
      = (⟨2, 0, 2, 0⟩, 2) := by decide

lemma addGo_bool_invariance (o₁ o₂ : Nat → InsertOutcome)
    (h : ∀ n, (add_video_to_playlist (o₁ n)).1 = (add_video_to_playlist (o₂ n)).1)
    (lines : List (List Char)) :
    ∀ existing insertCalls cs,
      addGo o₁ lines existing insertCalls cs
        = addGo o₂ lines existing insertCalls cs := by
  induction lines with
  | nil => intro existing insertCalls cs; rfl
  | cons line rest ih =>
    intro existing insertCalls cs
    simp only [addGo]
    by_cases hskip : ((pyStrip line).isEmpty || startsHash (pyStrip line)) = true
    · simp only [if_pos hskip]
      exact ih existing insertCalls cs
    · simp only [if_neg hskip]
      cases hev : extract_video_id (pyStrip line) with
      | none =>
        simp only [hev]
        exact ih existing insertCalls _
      | some vid =>
        simp only [hev]
        by_cases hmem : vid ∈ existing
        · simp only [if_pos hmem]
          exact ih existing insertCalls _
        · simp only [if_neg hmem, h insertCalls]
          by_cases hb : (add_video_to_playlist (o₂ insertCalls)).1 = true
          · simp only [if_pos hb]
            exact ih _ _ _
          · simp only [if_neg hb]
            exact ih _ _ _

/-- C8: `add_video_to_playlist` always returns a boolean (it is a total
function of the call outcome): true exactly on success and false for every
failure class — 404 (any content), 403, 409, 5xx, any other status, and
non-HTTP exceptions alike.  And the batch runner's counters (and insert-call
count) are invariant to the failure classification: two outcome scripts whose
booleans agree pointwise produce identical run results, so a 409-classified
false increments `errored` exactly like any other false — only the diagnostic
stream differs. -/
theorem c8_insert_bool_counter_invariance :
    (∀ r, (add_video_to_playlist r).1 = true ↔ r = .ok) ∧
    (∀ lines existing o₁ o₂,
      (∀ n, (add_video_to_playlist (o₁ n)).1
          = (add_video_to_playlist (o₂ n)).1) →
      run_add lines existing o₁ = run_add lines existing o₂) := by
  constructor
  · intro r
    cases r <;> simp [add_video_to_playlist]
  · intro lines existing o₁ o₂ h
    exact addGo_bool_invariance o₁ o₂ h lines existing 0 ⟨0, 0, 0, 0⟩

/-- Closed instantiation of the hypotheses of
`c8_insert_bool_counter_invariance`: a run whose single insert fails with a
409 conflict ends with the same counters as one failing with a non-HTTP
exception. -/
theorem c8_insert_bool_counter_invariance_witness :
    run_add ["https://youtu.be/AAAAAAAAAAA".toList] []
        (fun _ => .httpErr 409 [])
      = run_add ["https://youtu.be/AAAAAAAAAAA".toList] [] (fun _ => .exn) :=
  c8_insert_bool_counter_invariance.2 _ _ _ _ (fun _ => rfl)

/-! ## Theorems about the extractor

`re.search` on a pattern `(?:https?://)?(?:www\.)?CORE([a-zA-Z0-9_-]{11})`
returns the leftmost match.  The optional prefixes contain no `y`, every
core starts with `y`, and every core contains `y` only at index 0, so a
match can start inside a prefix occurrence of neither kind; the leftmost
match is the leftmost occurrence of `CORE` followed by 11 identifier
characters, which is what `searchCore` computes.  The lemmas below walk
`searchCore` across regions that cannot contain a match. -/

lemma matchAt_eq_none_of_not_start {core s : List Char} (h : ¬ core <+: s) :
    matchAt core s = none := by
  simp [matchAt, List.isPrefixOf_iff_prefix, h]

lemma searchCore_cons (core : List Char) (c : Char) (rest : List Char) :
    searchCore core (c :: rest)
      = match matchAt core (c :: rest) with
        | some v => some v
        | none => searchCore core rest := rfl

lemma matchAt_self (core rid z : List Char) (hlen : rid.length = 11)
    (halpha : rid.all idAlphabet = true) :
    matchAt core (core ++ (rid ++ z)) = some rid := by
  have hpre : core.isPrefixOf (core ++ (rid ++ z)) = true := by
    rw [ List.isPrefixOf_iff_prefix]
    exact List.prefix_append _ _
  have hdrop : (core ++ (rid ++ z)).drop core.length = rid ++ z :=
    List.drop_left _ _
  have htake : (rid ++ z).take 11 = rid := List.take_left' hlen
  simp [matchAt, hpre, hdrop, htake, hlen, halpha]

/-- Scanning over positions whose head character is not `y` finds no match
of a `y`-headed core. -/
lemma searchCore_append_of_no_y (core : List Char)
    (hhead : core.head? = some 'y') :
    ∀ (x s : List Char), (∀ c ∈ x, c ≠ 'y') →
      searchCore core (x ++ s) = searchCore core s := by
  intro x
  induction x with
  | nil => intro s _; rfl
  | cons c x' ih =>
    intro s hx
    have hc : c ≠ 'y' := hx c (by simp)
    have hm : matchAt core (c :: (x' ++ s)) = none := by
      apply matchAt_eq_none_of_not_start
      intro hpre
      cases core with
      | nil => simp at hhead
      | cons k ks =>
        have hk : k = 'y' := by simpa using hhead
        have hkc : k = c := (List.cons_prefix_cons.mp hpre).1
        exact hc (hkc.symm.trans hk)
    calc searchCore core ((c :: x') ++ s)
        = searchCore core (c :: (x' ++ s)) := by rw [List.cons_append]
      _ = searchCore core (x' ++ s) := by rw [searchCore_cons, hm]
      _ = searchCore core s := ih s (fun d hd => hx d (by simp [hd]))

/-- A core that extends the probe `p` matches nowhere inside a string with
no occurrence of `p`. -/
lemma searchCore_eq_none_of_no_probe (core p : List Char)
    (hp : p <+: core) (hne : p ≠ []) :
    ∀ s : List Char, ¬ p <:+: s → searchCore core s = none := by
  intro s
  induction s with
  | nil =>
    intro h
    show matchAt core [] = none
    apply matchAt_eq_none_of_not_start
    intro hc
    exact hne (List.prefix_nil.mp (hp.trans hc))
  | cons c rest ih =>
    intro h
    have hm : matchAt core (c :: rest) = none :=
      matchAt_eq_none_of_not_start fun hc => h (hp.trans hc).isInfix
    simp only [searchCore, hm]
    exact ih fun hi => h (List.infix_cons hi)

/-- Two lists differing at some common index: the first is not a prefix of
the second extended by anything. -/
lemma matchAt_eq_none_of_zip_diff {a b : List Char} (z : List Char)
    (h : (a.zip b).any (fun p => p.1 != p.2) = true) :
    matchAt a (b ++ z) = none := by
  apply matchAt_eq_none_of_not_start
  intro hpre
  rw [List.any_eq_true] at h
  obtain ⟨p, hmem, hne⟩ := h
  obtain ⟨i, hi, hget⟩ := List.mem_iff_getElem.mp hmem
  have hia : i < a.length := by
    have := hi
    simp [List.length_zip] at this
    omega
  have hib : i < b.length := by
    have := hi
    simp [List.length_zip] at this
    omega
  have hzip : (a.zip b)[i] = (a[i], b[i]) := List.getElem_zip
  have hab : a[i] ≠ b[i] := by
    rw [hzip] at hget
    subst hget
    simpa using hne
  obtain ⟨t, ht⟩ := hpre
  have h1 : (a ++ t)[i]? = a[i]? := List.getElem?_append_left hia
  have h2 : (b ++ z)[i]? = b[i]? := List.getElem?_append_left hib
  rw [ht, h2] at h1
  rw [List.getElem?_eq_getElem hib, List.getElem?_eq_getElem hia] at h1
  exact hab (Option.some_injective _ h1.symm)

/-- A higher-priority core matches nowhere in `ck ++ s`: it differs from
`ck` at a common index, cannot start inside `ck`'s tail (single `y`), and
cannot start inside `s` (no `"youtu"` occurrence there). -/
lemma searchCore_cross (cj ck s : List Char)
    (hckhead : ck.head? = some 'y') (hcktail : ∀ c ∈ ck.tail, c ≠ 'y')
    (hcjhead : cj.head? = some 'y')
    (hdiff : (cj.zip ck).any (fun p => p.1 != p.2) = true)
    (hcj5 : "youtu".toList <+: cj)
    (hs : ¬ ("youtu".toList <:+: s)) :
    searchCore cj (ck ++ s) = none := by
  obtain ⟨kt, rfl⟩ : ∃ kt, ck = 'y' :: kt := by
    cases ck with
    | nil => simp at hckhead
    | cons k ks => exact ⟨ks, by simp_all⟩
  have hm : matchAt cj (('y' :: kt) ++ s) = none :=
    matchAt_eq_none_of_zip_diff _ hdiff
  simp only [List.cons_append] at hm ⊢
  simp only [searchCore, hm]
  rw [searchCore_append_of_no_y cj hcjhead kt s (by simpa using hcktail)]
  exact searchCore_eq_none_of_no_probe cj "youtu".toList hcj5 (by decide) s hs

/-- The own core matches at its own position, capturing the 11 identifier
characters that follow. -/
lemma searchCore_self (ck rid z : List Char) (hck : ck ≠ [])
    (hlen : rid.length = 11) (halpha : rid.all idAlphabet = true) :
    searchCore ck (ck ++ (rid ++ z)) = some rid := by
  cases ck with
  | nil => exact absurd rfl hck
  | cons k ks =>
    have hm : matchAt (k :: ks) ((k :: ks) ++ (rid ++ z)) = some rid :=
      matchAt_self _ _ _ hlen halpha
    simp only [List.cons_append] at hm ⊢
    simp only [searchCore, hm]

/-- A prefix without the letter `y` (any combination of scheme and `www.`)
does not affect extraction. -/
lemma extract_append_of_no_y (x url : List Char) (hx : ∀ c ∈ x, c ≠ 'y') :
    extract_video_id (x ++ url) = extract_video_id url := by
  simp only [extract_video_id, cores, tryPatterns,
    searchCore_append_of_no_y "youtube.com/watch?v=".toList (by decide) x url hx,
    searchCore_append_of_no_y "youtu.be/".toList (by decide) x url hx,
    searchCore_append_of_no_y "youtube.com/embed/".toList (by decide) x url hx,
    searchCore_append_of_no_y "youtube.com/v/".toList (by decide) x url hx,
    searchCore_append_of_no_y "youtube.com/shorts/".toList (by decide) x url hx,
    searchCore_append_of_no_y "youtube.com/live/".toList (by decide) x url hx]

/-- Every pattern core starts with `"youtu"`, so a string with no occurrence
of `"youtu"` (in particular any unrelated-domain URL) yields no extraction. -/
lemma extract_eq_none_of_no_youtu (url : List Char)
    (h : ¬ ("youtu".toList <:+: url)) : extract_video_id url = none := by
  simp only [extract_video_id, cores, tryPatterns,
    searchCore_eq_none_of_no_probe "youtube.com/watch?v=".toList
      "youtu".toList (by decide) (by decide) url h,
    searchCore_eq_none_of_no_probe "youtu.be/".toList
      "youtu".toList (by decide) (by decide) url h,
    searchCore_eq_none_of_no_probe "youtube.com/embed/".toList
      "youtu".toList (by decide) (by decide) url h,
    searchCore_eq_none_of_no_probe "youtube.com/v/".toList
      "youtu".toList (by decide) (by decide) url h,
    searchCore_eq_none_of_no_probe "youtube.com/shorts/".toList
      "youtu".toList (by decide) (by decide) url h,
    searchCore_eq_none_of_no_probe "youtube.com/live/".toList
      "youtu".toList (by decide) (by decide) url h]

/-- C10: the 11-character bound in each pattern is a prefix capture, not a
length validation: a youtu.be URL whose embedded token has 12 identifier
characters does not yield "no identifier found" — it returns the token's
first 11 characters, silently truncating. -/
theorem c10_overlong_token_truncated :
    extract_video_id "https://youtu.be/abcdefghijkl".toList
        = some ("abcdefghijkl".toList.take 11) ∧
    extract_video_id "https://youtu.be/abcdefghijkl".toList ≠ none := by
  decide

/-- C5: extraction returns "no identifier found" (`none`) for the empty
string; for every URL on an unrelated domain (formalised: any string with no
occurrence of `"youtu"`, which every pattern core begins with); for a watch
URL whose `v=` value is empty; and for a bare `youtu.be/` with no path
segment. -/
theorem c5_no_id_cases :
    extract_video_id [] = none ∧
    (∀ url : List Char, ¬ ("youtu".toList <:+: url) →
      extract_video_id url = none) ∧
    extract_video_id "https://www.youtube.com/watch?v=".toList = none ∧
    extract_video_id "youtu.be/".toList = none := by
  refine ⟨by decide, ?_, by decide, by decide⟩
  exact extract_eq_none_of_no_youtu

/-- Closed instantiation of the hypotheses of `c5_no_id_cases`. -/
theorem c5_no_id_cases_witness :
    extract_video_id "https://www.google.com".toList = none :=
  c5_no_id_cases.2.1 "https://www.google.com".toList (by decide)

/-- C4: for every string built of an optional scheme, an optional `www.`,
one of the six supported shape cores, an embedded 11-character identifier
from `[a-zA-Z0-9_-]`, and arbitrary trailing text that embeds no further
URL shape (no occurrence of `"youtu"` in identifier-plus-trailer, e.g. any
ordinary query string), `extract_video_id` returns exactly that identifier:
the patterns are tried in fixed priority order and the first matching
shape's capture — here, the embedded identifier — is returned. -/
theorem c4_supported_shapes_extract_id (core scheme www rid tr : List Char)
    (hcore : core ∈ cores)
    (hs : scheme = [] ∨ scheme = "http://".toList ∨ scheme = "https://".toList)
    (hw : www = [] ∨ www = "www.".toList)
    (hlen : rid.length = 11) (halpha : rid.all idAlphabet = true)
    (htr : ¬ ("youtu".toList <:+: (rid ++ tr))) :
    extract_video_id (scheme ++ www ++ (core ++ (rid ++ tr))) = some rid := by
  have hx : ∀ c ∈ scheme ++ www, c ≠ 'y' := by
    rcases hs with rfl | rfl | rfl <;> rcases hw with rfl | rfl <;> decide
  rw [extract_append_of_no_y (scheme ++ www) _ hx]
  simp only [cores, List.mem_cons, List.not_mem_nil, or_false] at hcore
  rcases hcore with rfl | rfl | rfl | rfl | rfl | rfl
  · simp only [extract_video_id, cores, tryPatterns,
      searchCore_self "youtube.com/watch?v=".toList rid tr
        (by decide) hlen halpha]
  · simp only [extract_video_id, cores, tryPatterns,
      searchCore_cross "youtube.com/watch?v=".toList "youtu.be/".toList
        (rid ++ tr) (by decide) (by decide) (by decide) (by decide)
        (by decide) htr,
      searchCore_self "youtu.be/".toList rid tr (by decide) hlen halpha]
  · simp only [extract_video_id, cores, tryPatterns,
      searchCore_cross "youtube.com/watch?v=".toList "youtube.com/embed/".toList
        (rid ++ tr) (by decide) (by decide) (by decide) (by decide)
        (by decide) htr,
      searchCore_cross "youtu.be/".toList "youtube.com/embed/".toList
        (rid ++ tr) (by decide) (by decide) (by decide) (by decide)
        (by decide) htr,
      searchCore_self "youtube.com/embed/".toList rid tr
        (by decide) hlen halpha]
  · simp only [extract_video_id, cores, tryPatterns,
      searchCore_cross "youtube.com/watch?v=".toList "youtube.com/v/".toList
        (rid ++ tr) (by decide) (by decide) (by decide) (by decide)
        (by decide) htr,
      searchCore_cross "youtu.be/".toList "youtube.com/v/".toList
        (rid ++ tr) (by decide) (by decide) (by decide) (by decide)
        (by decide) htr,
      searchCore_cross "youtube.com/embed/".toList "youtube.com/v/".toList
        (rid ++ tr) (by decide) (by decide) (by decide) (by decide)
        (by decide) htr,
      searchCore_self "youtube.com/v/".toList rid tr (by decide) hlen halpha]
  · simp only [extract_video_id, cores, tryPatterns,
      searchCore_cross "youtube.com/watch?v=".toList "youtube.com/shorts/".toList
        (rid ++ tr) (by decide) (by decide) (by decide) (by decide)
        (by decide) htr,
      searchCore_cross "youtu.be/".toList "youtube.com/shorts/".toList
        (rid ++ tr) (by decide) (by decide) (by decide) (by decide)
        (by decide) htr,
      searchCore_cross "youtube.com/embed/".toList "youtube.com/shorts/".toList
        (rid ++ tr) (by decide) (by decide) (by decide) (by decide)
        (by decide) htr,
      searchCore_cross "youtube.com/v/".toList "youtube.com/shorts/".toList
        (rid ++ tr) (by decide) (by decide) (by decide) (by decide)
        (by decide) htr,
      searchCore_self "youtube.com/shorts/".toList rid tr
        (by decide) hlen halpha]
  · simp only [extract_video_id, cores, tryPatterns,
      searchCore_cross "youtube.com/watch?v=".toList "youtube.com/live/".toList
        (rid ++ tr) (by decide) (by decide) (by decide) (by decide)
        (by decide) htr,
      searchCore_cross "youtu.be/".toList "youtube.com/live/".toList
        (rid ++ tr) (by decide) (by decide) (by decide) (by decide)
        (by decide) htr,
      searchCore_cross "youtube.com/embed/".toList "youtube.com/live/".toList
        (rid ++ tr) (by decide) (by decide) (by decide) (by decide)
        (by decide) htr,
      searchCore_cross "youtube.com/v/".toList "youtube.com/live/".toList
        (rid ++ tr) (by decide) (by decide) (by decide) (by decide)
        (by decide) htr,
      searchCore_cross "youtube.com/shorts/".toList "youtube.com/live/".toList
        (rid ++ tr) (by decide) (by decide) (by decide) (by decide)
        (by decide) htr,
      searchCore_self "youtube.com/live/".toList rid tr
        (by decide) hlen halpha]

/-- Closed instantiation of the hypotheses of
`c4_supported_shapes_extract_id`. -/
theorem c4_supported_shapes_extract_id_witness :
    extract_video_id ("https://".toList ++ "www.".toList ++
        ("youtube.com/watch?v=".toList ++
          ("dQw4w9WgXcQ".toList ++ "&feature=related".toList)))
      = some "dQw4w9WgXcQ".toList :=
  c4_supported_shapes_extract_id _ _ _ _ _ (by decide)
    (Or.inr (Or.inr rfl)) (Or.inr rfl) (by decide) (by decide) (by decide)

end YtPl
